import Mathlib

/-!
Verification development for the ARP-spoof detection simulator in src/sdn.py.

The simulator keeps a controller with an IP-to-MAC table (a Python dict),
a set of blocked MACs, an append-only log of formatted strings, and a
boolean auto-block flag.  Announcements are classified as DROP, ALERT or
LEARN; blocking appends a MITIGATE line.  On top of the controller sit a
random-MAC utility, a deterministic basic-mode event driver, a
probabilistic random-mode event driver, and a topology renderer.

The embedding below transliterates those functions.  Python dicts become
association lists with first-match lookup and in-place overwrite;
the blocked set becomes a duplicate-free append list; wall-clock
timestamps from time.strftime become an explicit string argument to each
operation; the pseudo-random draws of the random-mode driver become
explicit inputs (a rational for random.random, naturals for randint and
for the uniform host choice).
-/

namespace ArpSim

/-- Python dict lookup on an association list: the first binding wins. -/
def lookupTable : List (String × String) → String → Option String
  | [], _ => none
  | (k, v) :: rest, key => if k = key then some v else lookupTable rest key

/-- Python dict assignment d[key] = val: overwrite an existing binding in
place, otherwise append the new binding at the end. -/
def setTable : List (String × String) → String → String → List (String × String)
  | [], key, val => [(key, val)]
  | (k, v) :: rest, key, val =>
      if k = key then (key, val) :: rest else (k, v) :: setTable rest key val

/-- Log line layout of SimpleController._log in src/sdn.py. -/
def mkLine (ts lvl msg : String) : String :=
  "[" ++ ts ++ "] " ++ lvl ++ ": " ++ msg

/-- Message of the DROP branch of receive_arp. -/
def dropMsg (mac info : String) : String :=
  "Packet from blocked MAC " ++ mac ++ " dropped. (" ++ info ++ ")"

/-- Message of the ALERT branch of receive_arp. -/
def alertMsg (ip old mac info : String) : String :=
  "ARP spoof detected: IP " ++ ip ++ " was " ++ old ++ ", now " ++ mac ++ ". (" ++ info ++ ")"

/-- Message of the LEARN branch of receive_arp. -/
def learnMsg (ip mac info : String) : String :=
  "Learned " ++ ip ++ " -> " ++ mac ++ ". (" ++ info ++ ")"

/-- Message of block_mac. -/
def mitigateMsg (mac : String) : String :=
  "Blocking MAC " ++ mac ++ " (simulated drop flow)."

/-- State of class SimpleController: arp_table (ip to mac), blocked_macs,
the block_on_detect flag and the log list. -/
structure SimpleController where
  arp_table : List (String × String)
  blocked_macs : List String
  block_on_detect : Bool
  logs : List String
deriving DecidableEq

/-- SimpleController._log: build the line, append it, return it.  The
timestamp produced by time.strftime is taken as the explicit argument ts. -/
def SimpleController._log (c : SimpleController) (ts lvl msg : String) :
    String × SimpleController :=
  (mkLine ts lvl msg, { c with logs := c.logs ++ [mkLine ts lvl msg] })

/-- SimpleController.block_mac: add the mac to blocked_macs and log a
MITIGATE line unless it is already blocked, in which case return None. -/
def SimpleController.block_mac (c : SimpleController) (ts mac : String) :
    Option String × SimpleController :=
  if mac ∈ c.blocked_macs then (none, c)
  else
    let c2 := { c with blocked_macs := c.blocked_macs ++ [mac] }
    let p := c2._log ts "MITIGATE" (mitigateMsg mac)
    (some p.1, p.2)

/-- SimpleController.receive_arp: DROP if the source mac is blocked; ALERT
on a conflicting mapping (blocking the new mac when block_on_detect is
set, and leaving the table untouched); otherwise LEARN the mapping. -/
def SimpleController.receive_arp (c : SimpleController)
    (ts src_ip src_mac pkt_info : String) : String × SimpleController :=
  if src_mac ∈ c.blocked_macs then
    c._log ts "DROP" (dropMsg src_mac pkt_info)
  else
    match lookupTable c.arp_table src_ip with
    | some old =>
        if old ≠ src_mac then
          let p := c._log ts "ALERT" (alertMsg src_ip old src_mac pkt_info)
          if c.block_on_detect then (p.1, (p.2.block_mac ts src_mac).2)
          else p
        else
          let c2 := { c with arp_table := setTable c.arp_table src_ip src_mac }
          c2._log ts "LEARN" (learnMsg src_ip src_mac pkt_info)
    | none =>
        let c2 := { c with arp_table := setTable c.arp_table src_ip src_mac }
        c2._log ts "LEARN" (learnMsg src_ip src_mac pkt_info)

/-- Lowercase hexadecimal digit character of n % 16. -/
def hexDigit (n : Nat) : Char := (n % 16).digitChar

/-- Python "%02x" % n for a byte n (0 to 255): two lowercase hex digits. -/
def byteHex (n : Nat) : String := String.mk [hexDigit (n / 16), hexDigit n]

/-- Python ":".join on a list of strings. -/
def joinColon : List String → String
  | [] => ""
  | [s] => s
  | s :: t :: rest => s ++ ":" ++ joinColon (t :: rest)

/-- random_mac from src/sdn.py.  The randint draws are the explicit input
rnd.  With a truthy (non-empty) prefix string it appends FOUR random
groups after the prefix; otherwise it builds six random groups. -/
def random_mac (pfx : Option String) (rnd : Nat → Nat) : String :=
  match pfx with
  | some p =>
      if p = "" then joinColon ((List.range 6).map fun i => byteHex (rnd i))
      else p ++ ":" ++ joinColon ((List.range 4).map fun i => byteHex (rnd i))
  | none => joinColon ((List.range 6).map fun i => byteHex (rnd i))

/-- The inline host-MAC f-string of the session initialization:
02:00 followed by four random groups. -/
def host_mac (b1 b2 b3 b4 : Nat) : String :=
  "02:00:" ++ byteHex b1 ++ ":" ++ byteHex b2 ++ ":" ++ byteHex b3 ++ ":" ++ byteHex b4

/-- The inline attacker-MAC f-string of the random-mode driver:
de:ad:be:ef followed by two random groups. -/
def random_spoof_mac (b1 b2 : Nat) : String :=
  "de:ad:be:ef:" ++ byteHex b1 ++ ":" ++ byteHex b2

/-- All-zero byte source for concrete instantiations. -/
def zeroBytes : Nat → Nat := fun _ => 0

/-- A lowercase hexadecimal digit character. -/
def isHexChar (c : Char) : Bool := c.isDigit || ('a' ≤ c && c ≤ 'f')

/-- k two-digit lowercase hexadecimal groups joined by single colons. -/
def checkGroups : Nat → List Char → Bool
  | 0, cs => cs.isEmpty
  | 1, cs =>
      match cs with
      | [a, b] => isHexChar a && isHexChar b
      | _ => false
  | n + 2, cs =>
      match cs with
      | a :: b :: c :: rest => isHexChar a && isHexChar b && (c == ':') && checkGroups (n + 1) rest
      | _ => false

/-- Two decimal digit characters whose value is at most hi. -/
def twoDigitsLe (a b : Char) (hi : Nat) : Bool :=
  a.isDigit && b.isDigit && ((a.toNat - 48) * 10 + (b.toNat - 48) ≤ hi)

/-- Character-level check for a 24-hour HH:MM:SS timestamp. -/
def isHHMMSSL : List Char → Bool
  | [h1, h2, c1, m1, m2, c2, s1, s2] =>
      twoDigitsLe h1 h2 23 && (c1 == ':') && twoDigitsLe m1 m2 59 &&
        (c2 == ':') && twoDigitsLe s1 s2 59
  | _ => false

/-- A 24-hour HH:MM:SS timestamp string, the shape time.strftime emits. -/
def isHHMMSS (s : String) : Bool := isHHMMSSL s.data

/-- The first list is an initial segment of the second. -/
def startsWith : List Char → List Char → Bool
  | [], _ => true
  | p :: ps, c :: cs => (p == c) && startsWith ps cs
  | _ :: _, [] => false

/-- The remainder of a log line begins with one of the four level tags. -/
def levelOk (rest : List Char) : Bool :=
  startsWith "DROP: ".data rest || startsWith "ALERT: ".data rest ||
    startsWith "LEARN: ".data rest || startsWith "MITIGATE: ".data rest

/-- Character-level check of the exact log line format
[HH:MM:SS] LEVEL: message with LEVEL among DROP, ALERT, LEARN, MITIGATE. -/
def checkLogLineL : List Char → Bool
  | '[' :: h1 :: h2 :: c1 :: m1 :: m2 :: c2 :: s1 :: s2 :: ']' :: ' ' :: rest =>
      isHHMMSSL [h1, h2, c1, m1, m2, c2, s1, s2] && levelOk rest
  | _ => false

/-- The exact log line format mandated by the spec. -/
def checkLogLine (line : String) : Bool := checkLogLineL line.data

/-- One controller-facing operation of the session: an announcement, an
explicit block, or the per-refresh synchronization of the auto-block
checkbox (ctrl.block_on_detect = block_on_detect). -/
inductive Op where
  | recv (ts ip mac info : String)
  | block (ts mac : String)
  | setBlockOnDetect (b : Bool)
deriving DecidableEq

/-- Apply one operation to the controller state. -/
def applyOp (c : SimpleController) : Op → SimpleController
  | Op.recv ts ip mac info => (c.receive_arp ts ip mac info).2
  | Op.block ts mac => (c.block_mac ts mac).2
  | Op.setBlockOnDetect b => { c with block_on_detect := b }

/-- Apply a sequence of operations, left to right. -/
def runOps (c : SimpleController) (ops : List Op) : SimpleController :=
  ops.foldl applyOp c

/-- The timestamp carried by an operation is a valid HH:MM:SS string.
time.strftime always produces one; the embedding takes it as input. -/
def Op.tsOk : Op → Bool
  | Op.recv ts _ _ _ => isHHMMSS ts
  | Op.block ts _ => isHHMMSS ts
  | Op.setBlockOnDetect _ => true

/-- The initial learning pass: one initial ARP per host, in roster order. -/
def initial_pass (hosts : List (String × String)) (ts : String)
    (c : SimpleController) : SimpleController :=
  hosts.foldl (fun acc h => (acc.receive_arp ts h.1 h.2 "initial ARP").2) c

/-- LEARN line produced for one host by the initial pass. -/
def initLine (ts : String) (h : String × String) : String :=
  mkLine ts "LEARN" (learnMsg h.1 h.2 "initial ARP")

/-- The basic-mode arm of one_event: if at least two hosts exist, send two
consecutive spoofed announcements for the second host using the fixed
attacker MAC aa:aa:aa:aa:aa:aa; otherwise do nothing. -/
def one_event_basic (hosts : List (String × String)) (ts : String)
    (c : SimpleController) : SimpleController :=
  match hosts with
  | _ :: v :: _ =>
      let c1 := (c.receive_arp ts v.1 "aa:aa:aa:aa:aa:aa" "spoof attempt (basic)").2
      (c1.receive_arp ts v.1 "aa:aa:aa:aa:aa:aa" "spoof attempt (basic #2)").2
  | _ => c

/-- The random draws consumed by one random-mode event: r models
random.random() (a value in the unit interval), idx the uniform host
choice, b1 and b2 the two randint bytes of the attacker MAC, and ts the
wall-clock timestamp of the event. -/
structure RandDraw where
  r : ℚ
  idx : Nat
  b1 : Nat
  b2 : Nat
  ts : String
deriving DecidableEq

/-- The random-mode arm of one_event: with r below the spoof chance, a
random spoof against a uniformly chosen host; otherwise a normal ARP
repeating a uniformly chosen host's own pair. -/
def one_event_random (hosts : List (String × String)) (chance : ℚ) (d : RandDraw)
    (c : SimpleController) : SimpleController :=
  if d.r < chance then
    let victim := (hosts.getD (d.idx % hosts.length) ("", "")).1
    (c.receive_arp d.ts victim (random_spoof_mac d.b1 d.b2) "random spoof").2
  else
    let s := hosts.getD (d.idx % hosts.length) ("", "")
    (c.receive_arp d.ts s.1 s.2 "normal ARP").2

/-- A sequence of random-mode events. -/
def run_random (hosts : List (String × String)) (chance : ℚ)
    (draws : List RandDraw) (c : SimpleController) : SimpleController :=
  draws.foldl (fun acc d => one_event_random hosts chance d acc) c

/-- LEARN line produced by one normal-ARP random-mode event. -/
def normalLine (hosts : List (String × String)) (d : RandDraw) : String :=
  mkLine d.ts "LEARN"
    (learnMsg (hosts.getD (d.idx % hosts.length) ("", "")).1
      (hosts.getD (d.idx % hosts.length) ("", "")).2 "normal ARP")

/-- Repeat the same announcement n times. -/
def repeat_recv (ts ip mac info : String) : Nat → SimpleController → SimpleController
  | 0, c => c
  | n + 1, c => repeat_recv ts ip mac info n ((c.receive_arp ts ip mac info).2)

/-- The graph built by draw_graph: node labels plus controller-to-node
edges.  The force-directed layout is a deterministic function of this
graph and the fixed seed 42, so equal graphs render identically. -/
structure TopoGraph where
  nodes : List String
  edges : List (String × String)
deriving DecidableEq

/-- draw_graph from src/sdn.py: a controller node, one labeled node and
edge per learned table entry, and an unknown-labeled node and edge per
roster host absent from the table.  The blocked argument is accepted and
never read, exactly as in the source. -/
def draw_graph (arp_table : List (String × String))
    (hosts : List (String × String)) (blocked : List String) : TopoGraph :=
  let g0 : TopoGraph := ⟨["controller"], []⟩
  let g1 := arp_table.foldl
    (fun g p =>
      ⟨g.nodes ++ [p.1 ++ "\n" ++ p.2], g.edges ++ [("controller", p.1 ++ "\n" ++ p.2)]⟩)
    g0
  hosts.foldl
    (fun g p =>
      if lookupTable arp_table p.1 = none then
        ⟨g.nodes ++ [p.1 ++ "\n(unknown)"], g.edges ++ [("controller", p.1 ++ "\n(unknown)")]⟩
      else g)
    g1

/-! Association-list lemmas for the Python dict model. -/

theorem lookupTable_setTable_self (t : List (String × String)) (k v : String) :
    lookupTable (setTable t k v) k = some v := by
  induction t with
  | nil => simp [setTable, lookupTable]
  | cons a rest ih =>
      obtain ⟨ak, av⟩ := a
      by_cases h : ak = k
      · simp [setTable, lookupTable, h]
      · simp [setTable, lookupTable, h, ih]

theorem lookupTable_setTable_ne (t : List (String × String)) (k k' v : String)
    (h : k' ≠ k) : lookupTable (setTable t k v) k' = lookupTable t k' := by
  induction t with
  | nil => simp [setTable, lookupTable, Ne.symm h]
  | cons a rest ih =>
      obtain ⟨ak, av⟩ := a
      by_cases hk : ak = k
      · subst hk
        simp [setTable, lookupTable, Ne.symm h]
      · simp [setTable, lookupTable, hk, ih]

theorem setTable_self (t : List (String × String)) (k v : String)
    (h : lookupTable t k = some v) : setTable t k v = t := by
  induction t with
  | nil => simp [lookupTable] at h
  | cons a rest ih =>
      obtain ⟨ak, av⟩ := a
      by_cases hk : ak = k
      · subst hk
        simp [lookupTable] at h
        simp [setTable, h]
      · simp [lookupTable, hk] at h
        simp [setTable, hk, ih h]

theorem setTable_append_of_none (t : List (String × String)) (k v : String)
    (h : lookupTable t k = none) : setTable t k v = t ++ [(k, v)] := by
  induction t with
  | nil => simp [setTable]
  | cons a rest ih =>
      obtain ⟨ak, av⟩ := a
      by_cases hk : ak = k
      · simp [lookupTable, hk] at h
      · simp [lookupTable, hk] at h
        simp [setTable, hk, ih h]

theorem lookupTable_append_none (t u : List (String × String)) (k : String)
    (h : lookupTable t k = none) : lookupTable (t ++ u) k = lookupTable u k := by
  induction t with
  | nil => simp
  | cons a rest ih =>
      obtain ⟨ak, av⟩ := a
      by_cases hk : ak = k
      · simp [lookupTable, hk] at h
      · simp [lookupTable, hk] at h ⊢
        exact ih h

theorem lookupTable_append_some (t u : List (String × String)) (k v : String)
    (h : lookupTable t k = some v) : lookupTable (t ++ u) k = some v := by
  induction t with
  | nil => simp [lookupTable] at h
  | cons a rest ih =>
      obtain ⟨ak, av⟩ := a
      by_cases hk : ak = k
      · simp [lookupTable, hk] at h ⊢
        exact h
      · simp [lookupTable, hk] at h ⊢
        exact ih h

theorem mem_of_lookupTable (l : List (String × String)) (k v : String)
    (h : lookupTable l k = some v) : (k, v) ∈ l := by
  induction l with
  | nil => simp [lookupTable] at h
  | cons a rest ih =>
      obtain ⟨ak, av⟩ := a
      by_cases hk : ak = k
      · subst hk
        simp [lookupTable] at h
        simp [h]
      · simp [lookupTable, hk] at h
        exact List.mem_cons_of_mem _ (ih h)

theorem lookupTable_of_mem_nodup (l : List (String × String)) (k v : String)
    (hnd : (l.map Prod.fst).Nodup) (hm : (k, v) ∈ l) :
    lookupTable l k = some v := by
  induction l with
  | nil => simp at hm
  | cons a rest ih =>
      obtain ⟨ak, av⟩ := a
      rw [List.map_cons, List.nodup_cons] at hnd
      rcases List.mem_cons.mp hm with he | hm2
      · injection he with h1 h2
        subst h1; subst h2
        simp [lookupTable]
      · have hk : ak ≠ k := by
          intro e
          subst e
          exact hnd.1 (List.mem_map.mpr ⟨(ak, v), hm2, rfl⟩)
        simp [lookupTable, hk]
        exact ih hnd.2 hm2

theorem getD_mem (l : List (String × String)) (n : Nat) (d : String × String)
    (h : n < l.length) : l.getD n d ∈ l := by
  induction l generalizing n with
  | nil => simp at h
  | cons a rest ih =>
      cases n with
      | zero => simp [List.getD]
      | succ m =>
          simp only [List.getD_cons_succ]
          exact List.mem_cons_of_mem _ (ih m (by simpa using h))

/-! Branch characterizations of receive_arp and block_mac. -/

theorem block_mac_mem (c : SimpleController) (ts mac : String)
    (h : mac ∈ c.blocked_macs) : c.block_mac ts mac = (none, c) := by
  simp [SimpleController.block_mac, h]

theorem block_mac_new (c : SimpleController) (ts mac : String)
    (h : mac ∉ c.blocked_macs) :
    c.block_mac ts mac =
      (some (mkLine ts "MITIGATE" (mitigateMsg mac)),
       { c with
           blocked_macs := c.blocked_macs ++ [mac],
           logs := c.logs ++ [mkLine ts "MITIGATE" (mitigateMsg mac)] }) := by
  simp [SimpleController.block_mac, SimpleController._log, h]

theorem receive_arp_drop (c : SimpleController) (ts ip mac info : String)
    (h : mac ∈ c.blocked_macs) :
    c.receive_arp ts ip mac info =
      (mkLine ts "DROP" (dropMsg mac info),
       { c with logs := c.logs ++ [mkLine ts "DROP" (dropMsg mac info)] }) := by
  simp [SimpleController.receive_arp, SimpleController._log, h]

theorem receive_arp_alert_block (c : SimpleController) (ts ip mac old info : String)
    (hb : mac ∉ c.blocked_macs) (hl : lookupTable c.arp_table ip = some old)
    (hne : old ≠ mac) (hbod : c.block_on_detect = true) :
    c.receive_arp ts ip mac info =
      (mkLine ts "ALERT" (alertMsg ip old mac info),
       { c with
           blocked_macs := c.blocked_macs ++ [mac],
           logs := c.logs ++ [mkLine ts "ALERT" (alertMsg ip old mac info),
                              mkLine ts "MITIGATE" (mitigateMsg mac)] }) := by
  simp [SimpleController.receive_arp, SimpleController._log, SimpleController.block_mac,
    hb, hl, hne, hbod]

theorem receive_arp_alert_noblock (c : SimpleController) (ts ip mac old info : String)
    (hb : mac ∉ c.blocked_macs) (hl : lookupTable c.arp_table ip = some old)
    (hne : old ≠ mac) (hbod : c.block_on_detect = false) :
    c.receive_arp ts ip mac info =
      (mkLine ts "ALERT" (alertMsg ip old mac info),
       { c with logs := c.logs ++ [mkLine ts "ALERT" (alertMsg ip old mac info)] }) := by
  simp [SimpleController.receive_arp, SimpleController._log, hb, hl, hne, hbod]

theorem receive_arp_learn (c : SimpleController) (ts ip mac info : String)
    (hb : mac ∉ c.blocked_macs)
    (hl : lookupTable c.arp_table ip = none ∨ lookupTable c.arp_table ip = some mac) :
    c.receive_arp ts ip mac info =
      (mkLine ts "LEARN" (learnMsg ip mac info),
       { c with
           arp_table := setTable c.arp_table ip mac,
           logs := c.logs ++ [mkLine ts "LEARN" (learnMsg ip mac info)] }) := by
  rcases hl with hl | hl <;>
    simp [SimpleController.receive_arp, SimpleController._log, hb, hl]

/-! Blocked-set growth lemmas. -/

theorem receive_arp_blocked_superset (c : SimpleController) (ts ip mac info M : String)
    (h : M ∈ c.blocked_macs) : M ∈ (c.receive_arp ts ip mac info).2.blocked_macs := by
  by_cases h1 : mac ∈ c.blocked_macs
  · rw [receive_arp_drop c ts ip mac info h1]
    exact h
  · cases hl : lookupTable c.arp_table ip with
    | none =>
        rw [receive_arp_learn c ts ip mac info h1 (Or.inl hl)]
        exact h
    | some old =>
        by_cases h2 : old = mac
        · rw [receive_arp_learn c ts ip mac info h1 (Or.inr (h2 ▸ hl))]
          exact h
        · cases hbod : c.block_on_detect with
          | true =>
              rw [receive_arp_alert_block c ts ip mac old info h1 hl h2 hbod]
              exact List.mem_append_left _ h
          | false =>
              rw [receive_arp_alert_noblock c ts ip mac old info h1 hl h2 hbod]
              exact h

theorem block_mac_blocked_superset (c : SimpleController) (ts mac M : String)
    (h : M ∈ c.blocked_macs) : M ∈ (c.block_mac ts mac).2.blocked_macs := by
  by_cases h1 : mac ∈ c.blocked_macs
  · rw [block_mac_mem c ts mac h1]
    exact h
  · rw [block_mac_new c ts mac h1]
    exact List.mem_append_left _ h

theorem applyOp_blocked_superset (c : SimpleController) (op : Op) (M : String)
    (h : M ∈ c.blocked_macs) : M ∈ (applyOp c op).blocked_macs := by
  cases op with
  | recv ts ip mac info => exact receive_arp_blocked_superset c ts ip mac info M h
  | block ts mac => exact block_mac_blocked_superset c ts mac M h
  | setBlockOnDetect b => exact h

theorem runOps_blocked_superset (c : SimpleController) (ops : List Op) (M : String)
    (h : M ∈ c.blocked_macs) : M ∈ (runOps c ops).blocked_macs := by
  induction ops generalizing c with
  | nil => exact h
  | cons op rest ih =>
      have h2 := applyOp_blocked_superset c op M h
      simpa [runOps, List.foldl_cons] using ih (applyOp c op) h2

/-! Log format lemmas. -/

theorem data_append (s t : String) : (s ++ t).data = s.data ++ t.data := rfl

theorem startsWith_append (p rest : List Char) : startsWith p (p ++ rest) = true := by
  induction p with
  | nil => rfl
  | cons a t ih => simp [startsWith, ih]

theorem isHHMMSSL_shape : ∀ cs : List Char, isHHMMSSL cs = true →
    ∃ a b c d e f g h, cs = [a, b, c, d, e, f, g, h]
  | [a, b, c, d, e, f, g, h], _ => ⟨a, b, c, d, e, f, g, h, rfl⟩
  | [], h => nomatch h
  | [_], h => nomatch h
  | [_, _], h => nomatch h
  | [_, _, _], h => nomatch h
  | [_, _, _, _], h => nomatch h
  | [_, _, _, _, _], h => nomatch h
  | [_, _, _, _, _, _], h => nomatch h
  | [_, _, _, _, _, _, _], h => nomatch h
  | _ :: _ :: _ :: _ :: _ :: _ :: _ :: _ :: _ :: _, h => nomatch h

theorem checkLogLine_mkLine (ts lvl msg : String) (hts : isHHMMSS ts = true)
    (hlvl : lvl = "DROP" ∨ lvl = "ALERT" ∨ lvl = "LEARN" ∨ lvl = "MITIGATE") :
    checkLogLine (mkLine ts lvl msg) = true := by
  unfold isHHMMSS at hts
  obtain ⟨a, b, c, d, e, f, g, h, heq⟩ := isHHMMSSL_shape ts.data hts
  have hts2 : isHHMMSSL [a, b, c, d, e, f, g, h] = true := by
    rw [← heq]
    exact hts
  have hdata : (mkLine ts lvl msg).data =
      '[' :: (ts.data ++ (']' :: ' ' :: (lvl.data ++ (':' :: ' ' :: msg.data)))) := by
    simp [mkLine, data_append]
  unfold checkLogLine
  rw [hdata, heq]
  simp only [List.cons_append, List.nil_append]
  rcases hlvl with rfl | rfl | rfl | rfl <;>
    simp [checkLogLineL, levelOk, startsWith, hts2]

theorem receive_arp_logs_all (P : String → Bool) (c : SimpleController)
    (ts ip mac info : String) (hc : c.logs.all P = true)
    (hP : ∀ lvl msg, lvl = "DROP" ∨ lvl = "ALERT" ∨ lvl = "LEARN" ∨ lvl = "MITIGATE" →
      P (mkLine ts lvl msg) = true) :
    (c.receive_arp ts ip mac info).2.logs.all P = true := by
  by_cases h1 : mac ∈ c.blocked_macs
  · rw [receive_arp_drop c ts ip mac info h1]
    simp [List.all_append, hc, hP "DROP" _ (by tauto)]
  · cases hl : lookupTable c.arp_table ip with
    | none =>
        rw [receive_arp_learn c ts ip mac info h1 (Or.inl hl)]
        simp [List.all_append, hc, hP "LEARN" _ (by tauto)]
    | some old =>
        by_cases h2 : old = mac
        · rw [receive_arp_learn c ts ip mac info h1 (Or.inr (h2 ▸ hl))]
          simp [List.all_append, hc, hP "LEARN" _ (by tauto)]
        · cases hbod : c.block_on_detect with
          | true =>
              rw [receive_arp_alert_block c ts ip mac old info h1 hl h2 hbod]
              simp [List.all_append, hc, hP "ALERT" _ (by tauto), hP "MITIGATE" _ (by tauto)]
          | false =>
              rw [receive_arp_alert_noblock c ts ip mac old info h1 hl h2 hbod]
              simp [List.all_append, hc, hP "ALERT" _ (by tauto)]

theorem block_mac_logs_all (P : String → Bool) (c : SimpleController)
    (ts mac : String) (hc : c.logs.all P = true)
    (hP : ∀ lvl msg, lvl = "DROP" ∨ lvl = "ALERT" ∨ lvl = "LEARN" ∨ lvl = "MITIGATE" →
      P (mkLine ts lvl msg) = true) :
    (c.block_mac ts mac).2.logs.all P = true := by
  by_cases h1 : mac ∈ c.blocked_macs
  · rw [block_mac_mem c ts mac h1]
    exact hc
  · rw [block_mac_new c ts mac h1]
    simp [List.all_append, hc, hP "MITIGATE" _ (by tauto)]

theorem applyOp_logs_check (c : SimpleController) (op : Op)
    (hc : c.logs.all checkLogLine = true) (hop : op.tsOk = true) :
    (applyOp c op).logs.all checkLogLine = true := by
  cases op with
  | recv ts ip mac info =>
      exact receive_arp_logs_all checkLogLine c ts ip mac info hc
        (fun lvl msg h => checkLogLine_mkLine ts lvl msg hop h)
  | block ts mac =>
      exact block_mac_logs_all checkLogLine c ts mac hc
        (fun lvl msg h => checkLogLine_mkLine ts lvl msg hop h)
  | setBlockOnDetect b => exact hc

/-! Claim theorems. -/

/-- C2: once M is blocked, M stays blocked across every sequence of
controller operations, and after any such sequence an announcement from M
returns a DROP line and changes nothing but the log, which grows by that
single DROP entry: no LEARN or ALERT is produced for it, and neither the
table nor the blocked set moves. -/
theorem claim2_blocked_always_dropped (c : SimpleController) (M : String)
    (ops : List Op) (ts ip info : String) (hM : M ∈ c.blocked_macs) :
    M ∈ (runOps c ops).blocked_macs ∧
    ((runOps c ops).receive_arp ts ip M info).1 = mkLine ts "DROP" (dropMsg M info) ∧
    ((runOps c ops).receive_arp ts ip M info).2 =
      { runOps c ops with
          logs := (runOps c ops).logs ++ [mkLine ts "DROP" (dropMsg M info)] } := by
  have hmem := runOps_blocked_superset c ops M hM
  have hd := receive_arp_drop (runOps c ops) ts ip M info hmem
  exact ⟨hmem, by rw [hd], by rw [hd]⟩

/-- C2 witness: a concrete blocked MAC survives a recv, a block and a
flag toggle, and still gets dropped. -/
theorem claim2_blocked_always_dropped_w :
    "m" ∈ (runOps ⟨[], ["m"], true, []⟩
      [Op.recv "t1" "a" "x" "i", Op.block "t2" "y", Op.setBlockOnDetect false]).blocked_macs ∧
    ((runOps ⟨[], ["m"], true, []⟩
      [Op.recv "t1" "a" "x" "i", Op.block "t2" "y",
       Op.setBlockOnDetect false]).receive_arp "t3" "b" "m" "j").1 =
      mkLine "t3" "DROP" (dropMsg "m" "j") ∧
    ((runOps ⟨[], ["m"], true, []⟩
      [Op.recv "t1" "a" "x" "i", Op.block "t2" "y",
       Op.setBlockOnDetect false]).receive_arp "t3" "b" "m" "j").2 =
      { runOps ⟨[], ["m"], true, []⟩
          [Op.recv "t1" "a" "x" "i", Op.block "t2" "y", Op.setBlockOnDetect false] with
          logs := (runOps ⟨[], ["m"], true, []⟩
            [Op.recv "t1" "a" "x" "i", Op.block "t2" "y",
             Op.setBlockOnDetect false]).logs ++ [mkLine "t3" "DROP" (dropMsg "m" "j")] } :=
  claim2_blocked_always_dropped ⟨[], ["m"], true, []⟩ "m"
    [Op.recv "t1" "a" "x" "i", Op.block "t2" "y", Op.setBlockOnDetect false]
    "t3" "b" "j" (by decide)

/-- C8: if every existing log line already has the exact form
[HH:MM:SS] LEVEL: message with LEVEL among DROP, ALERT, LEARN and
MITIGATE, then after any sequence of operations whose strftime
timestamps are well-formed 24-hour HH:MM:SS strings, every log line still
has exactly that form: no operation appends a line in another format or
with another level. -/
theorem claim8_log_line_format (c : SimpleController) (ops : List Op)
    (hc : c.logs.all checkLogLine = true) (hops : ops.all Op.tsOk = true) :
    (runOps c ops).logs.all checkLogLine = true := by
  induction ops generalizing c with
  | nil => exact hc
  | cons op rest ih =>
      rw [List.all_cons, Bool.and_eq_true] at hops
      have h2 := applyOp_logs_check c op hc hops.1
      simpa [runOps, List.foldl_cons] using ih (applyOp c op) h2 hops.2

/-- C8 witness: a learn, an alert-free drop path and an explicit block at
concrete valid timestamps keep every line well-formed. -/
theorem claim8_log_line_format_w :
    (runOps ⟨[], [], true, []⟩
      [Op.recv "12:00:00" "a" "m" "i", Op.recv "23:59:59" "a" "m2" "j",
       Op.block "00:00:01" "n", Op.setBlockOnDetect false]).logs.all checkLogLine = true :=
  claim8_log_line_format ⟨[], [], true, []⟩
    [Op.recv "12:00:00" "a" "m" "i", Op.recv "23:59:59" "a" "m2" "j",
     Op.block "00:00:01" "n", Op.setBlockOnDetect false]
    rfl (by decide)

/-- C1: when the table maps A to M1, neither M1 nor M2 is blocked and M2
differs from M1, processing the announcement (A, M2) returns the ALERT
line, appends it to the log (followed by a MITIGATE line exactly when
block_on_detect is set), and leaves the table unchanged, still mapping A
to M1 and not M2. -/
theorem claim1_conflict_preserves_mapping (c : SimpleController)
    (ts A M1 M2 info : String)
    (ht : lookupTable c.arp_table A = some M1)
    (hM1 : M1 ∉ c.blocked_macs) (hM2 : M2 ∉ c.blocked_macs) (hne : M2 ≠ M1) :
    (c.receive_arp ts A M2 info).1 = mkLine ts "ALERT" (alertMsg A M1 M2 info) ∧
    (c.receive_arp ts A M2 info).2.logs =
      c.logs ++ mkLine ts "ALERT" (alertMsg A M1 M2 info) ::
        (if c.block_on_detect then [mkLine ts "MITIGATE" (mitigateMsg M2)] else []) ∧
    (c.receive_arp ts A M2 info).2.arp_table = c.arp_table ∧
    lookupTable (c.receive_arp ts A M2 info).2.arp_table A = some M1 := by
  cases hbod : c.block_on_detect with
  | true =>
      rw [receive_arp_alert_block c ts A M2 M1 info hM2 ht (Ne.symm hne) hbod]
      simp [hbod, ht]
  | false =>
      rw [receive_arp_alert_noblock c ts A M2 M1 info hM2 ht (Ne.symm hne) hbod]
      simp [hbod, ht]

/-- C1 witness at a concrete one-entry controller. -/
theorem claim1_conflict_preserves_mapping_w :
    ((⟨[("a", "m1")], [], true, []⟩ : SimpleController).receive_arp "t" "a" "m2" "i").1 =
      mkLine "t" "ALERT" (alertMsg "a" "m1" "m2" "i") ∧
    ((⟨[("a", "m1")], [], true, []⟩ : SimpleController).receive_arp "t" "a" "m2" "i").2.logs =
      [mkLine "t" "ALERT" (alertMsg "a" "m1" "m2" "i"),
       mkLine "t" "MITIGATE" (mitigateMsg "m2")] ∧
    ((⟨[("a", "m1")], [], true, []⟩ : SimpleController).receive_arp "t" "a" "m2" "i").2.arp_table =
      [("a", "m1")] ∧
    lookupTable
      ((⟨[("a", "m1")], [], true, []⟩ : SimpleController).receive_arp "t" "a" "m2" "i").2.arp_table
      "a" = some "m1" :=
  claim1_conflict_preserves_mapping ⟨[("a", "m1")], [], true, []⟩ "t" "a" "m1" "m2" "i"
    (by decide) (by decide) (by decide) (by decide)

/-- C5: blocking an already-blocked address returns none, appends no log
entry and leaves the whole state unchanged, so blocking twice in a row
equals blocking once. -/
theorem claim5_block_idempotent (c : SimpleController) (ts ts2 M : String)
    (h : M ∈ c.blocked_macs) :
    c.block_mac ts M = (none, c) ∧
    ((c.block_mac ts M).2.block_mac ts2 M).2 = (c.block_mac ts M).2 := by
  have h1 := block_mac_mem c ts M h
  refine ⟨h1, ?_⟩
  rw [h1]
  exact congrArg Prod.snd (block_mac_mem c ts2 M h)

/-- C5 witness at a concrete controller with one blocked address. -/
theorem claim5_block_idempotent_w :
    (⟨[], ["m"], true, []⟩ : SimpleController).block_mac "t" "m" =
      (none, (⟨[], ["m"], true, []⟩ : SimpleController)) ∧
    (((⟨[], ["m"], true, []⟩ : SimpleController).block_mac "t" "m").2.block_mac "u" "m").2 =
      ((⟨[], ["m"], true, []⟩ : SimpleController).block_mac "t" "m").2 :=
  claim5_block_idempotent ⟨[], ["m"], true, []⟩ "t" "u" "m" (by decide)

/-- C6: with fewer than two configured hosts the basic-mode step returns
the state unchanged: no new log entries, no table change, no block-set
change, and no failure. -/
theorem claim6_basic_short_roster_noop (hosts : List (String × String))
    (ts : String) (c : SimpleController) (h : hosts.length < 2) :
    one_event_basic hosts ts c = c := by
  cases hosts with
  | nil => rfl
  | cons a t =>
      cases t with
      | nil => rfl
      | cons b t2 =>
          simp [List.length_cons] at h
          omega

/-- C6 witness at a one-host roster. -/
theorem claim6_basic_short_roster_noop_w :
    one_event_basic [("a", "m")] "t" ⟨[], [], true, []⟩ =
      (⟨[], [], true, []⟩ : SimpleController) :=
  claim6_basic_short_roster_noop [("a", "m")] "t" ⟨[], [], true, []⟩ (by decide)

/-- C9: draw_graph never reads the blocked set: states with equal tables
and rosters but different blocked sets produce identical graphs, and
hence identical output under any deterministic layout function (the
spring layout with fixed seed 42 is one such function of the graph). -/
theorem claim9_topology_ignores_blocked (table hosts : List (String × String))
    (blocked1 blocked2 : List String) :
    draw_graph table hosts blocked1 = draw_graph table hosts blocked2 ∧
    ∀ (α : Type) (layout : TopoGraph → α),
      layout (draw_graph table hosts blocked1) = layout (draw_graph table hosts blocked2) :=
  ⟨rfl, fun _ _ => rfl⟩

/-- C10: with auto-block disabled, the same conflicting announcement
repeated n times appends exactly one fresh ALERT line per call and leaves
the blocked set and the table unchanged. -/
theorem claim10_alerts_not_deduplicated (c : SimpleController)
    (ts A M1 M2 info : String) (n : Nat)
    (hbod : c.block_on_detect = false)
    (ht : lookupTable c.arp_table A = some M1)
    (hne : M2 ≠ M1) (hb : M2 ∉ c.blocked_macs) :
    (repeat_recv ts A M2 info n c).logs =
      c.logs ++ List.replicate n (mkLine ts "ALERT" (alertMsg A M1 M2 info)) ∧
    (repeat_recv ts A M2 info n c).blocked_macs = c.blocked_macs ∧
    (repeat_recv ts A M2 info n c).arp_table = c.arp_table := by
  induction n generalizing c with
  | zero => simp [repeat_recv]
  | succ m ih =>
      have hstep := receive_arp_alert_noblock c ts A M2 M1 info hb ht (Ne.symm hne) hbod
      have ih2 := ih { c with logs := c.logs ++ [mkLine ts "ALERT" (alertMsg A M1 M2 info)] }
        hbod ht hb
      obtain ⟨l1, l2, l3⟩ := ih2
      simp only [repeat_recv, hstep]
      refine ⟨?_, ?_, ?_⟩
      · rw [l1]
        simp [List.replicate_succ, List.append_assoc]
      · exact l2
      · exact l3

/-- C10 witness: two repetitions against a concrete controller. -/
theorem claim10_alerts_not_deduplicated_w :
    (repeat_recv "t" "a" "m2" "i" 2 ⟨[("a", "m1")], [], false, []⟩).logs =
      List.replicate 2 (mkLine "t" "ALERT" (alertMsg "a" "m1" "m2" "i")) ∧
    (repeat_recv "t" "a" "m2" "i" 2 ⟨[("a", "m1")], [], false, []⟩).blocked_macs =
      ([] : List String) ∧
    (repeat_recv "t" "a" "m2" "i" 2 ⟨[("a", "m1")], [], false, []⟩).arp_table =
      [("a", "m1")] :=
  claim10_alerts_not_deduplicated ⟨[("a", "m1")], [], false, []⟩ "t" "a" "m1" "m2" "i" 2
    rfl (by decide) (by decide) (by decide)

/-! Hex-group lemmas for the identity generator. -/

theorem isHexChar_hexDigit (n : Nat) : isHexChar (hexDigit n) = true := by
  unfold hexDigit
  have h : n % 16 < 16 := Nat.mod_lt _ (by norm_num)
  set m := n % 16 with hm
  interval_cases m <;> rfl

theorem byteHex_data (n : Nat) : (byteHex n).data = [hexDigit (n / 16), hexDigit n] := rfl

theorem checkGroups_two (a b : Char) (ha : isHexChar a = true) (hb : isHexChar b = true) :
    checkGroups 1 [a, b] = true := by
  simp [checkGroups, ha, hb]

theorem checkGroups_cons (n : Nat) (a b : Char) (rest : List Char)
    (ha : isHexChar a = true) (hb : isHexChar b = true)
    (h : checkGroups (n + 1) rest = true) :
    checkGroups (n + 2) (a :: b :: ':' :: rest) = true := by
  simp [checkGroups, ha, hb, h]

theorem checkGroups_joinColon_byteHex : ∀ l : List Nat, l ≠ [] →
    checkGroups l.length (joinColon (l.map byteHex)).data = true
  | [], h => absurd rfl h
  | [n], _ => by
      simp only [List.map, joinColon, List.length]
      rw [byteHex_data]
      exact checkGroups_two _ _ (isHexChar_hexDigit _) (isHexChar_hexDigit _)
  | n :: m :: rest, _ => by
      have ih := checkGroups_joinColon_byteHex (m :: rest) (by simp)
      simp only [List.map, joinColon, List.length]
      have hd : (byteHex n ++ ":" ++ joinColon (byteHex m :: rest.map byteHex)).data =
          hexDigit (n / 16) :: hexDigit n :: ':' ::
            (joinColon (byteHex m :: rest.map byteHex)).data := by
        rw [data_append, data_append, byteHex_data]
        rfl
      rw [hd]
      have hlen : rest.length + 1 + 1 = rest.length + 2 := rfl
      rw [hlen]
      refine checkGroups_cons _ _ _ _ (isHexChar_hexDigit _) (isHexChar_hexDigit _) ?_
      simpa using ih

/-- C4 counterexample: the identity generator called with the prefix
de:ad:be:ef appends FOUR further random groups, yielding an eight-group
string, not the claimed six-group string formed by the prefix plus
exactly two random groups. -/
theorem claim4_six_groups_cex :
    random_mac (some "de:ad:be:ef") zeroBytes = "de:ad:be:ef:00:00:00:00" ∧
    checkGroups 6 (random_mac (some "de:ad:be:ef") zeroBytes).data = false :=
  ⟨rfl, rfl⟩

/-- C4 amended: random_mac with no prefix returns six lowercase two-digit
hex groups joined by colons; with any non-empty prefix it returns the
prefix followed by exactly four random groups, so the output is a
six-group string only when the prefix itself has two groups.  The
de:ad:be:ef attacker address with exactly two random groups, like the
02:00 host address with four, is produced by an inline f-string in the
driver, not by random_mac. -/
theorem claim4_six_groups_amended (rnd : Nat → Nat) (p : String) (hp : p ≠ "") :
    checkGroups 6 (random_mac none rnd).data = true ∧
    random_mac (some p) rnd =
      p ++ ":" ++ joinColon [byteHex (rnd 0), byteHex (rnd 1), byteHex (rnd 2), byteHex (rnd 3)] ∧
    checkGroups 6 (host_mac (rnd 0) (rnd 1) (rnd 2) (rnd 3)).data = true ∧
    checkGroups 6 (random_spoof_mac (rnd 0) (rnd 1)).data = true := by
  refine ⟨?_, ?_, ?_, ?_⟩
  · have h6 : random_mac none rnd =
        joinColon (List.map byteHex [rnd 0, rnd 1, rnd 2, rnd 3, rnd 4, rnd 5]) := rfl
    rw [h6]
    exact checkGroups_joinColon_byteHex [rnd 0, rnd 1, rnd 2, rnd 3, rnd 4, rnd 5] (by simp)
  · simp [random_mac, hp]
    rfl
  · have hd : (host_mac (rnd 0) (rnd 1) (rnd 2) (rnd 3)).data =
        '0' :: '2' :: ':' :: '0' :: '0' :: ':' ::
          (hexDigit (rnd 0 / 16) :: hexDigit (rnd 0) :: ':' ::
            (hexDigit (rnd 1 / 16) :: hexDigit (rnd 1) :: ':' ::
              (hexDigit (rnd 2 / 16) :: hexDigit (rnd 2) :: ':' ::
                [hexDigit (rnd 3 / 16), hexDigit (rnd 3)]))) := by
      simp [host_mac, data_append, byteHex_data]
    rw [hd]
    refine checkGroups_cons _ _ _ _ (by decide) (by decide) ?_
    refine checkGroups_cons _ _ _ _ (by decide) (by decide) ?_
    refine checkGroups_cons _ _ _ _ (isHexChar_hexDigit _) (isHexChar_hexDigit _) ?_
    refine checkGroups_cons _ _ _ _ (isHexChar_hexDigit _) (isHexChar_hexDigit _) ?_
    refine checkGroups_cons _ _ _ _ (isHexChar_hexDigit _) (isHexChar_hexDigit _) ?_
    exact checkGroups_two _ _ (isHexChar_hexDigit _) (isHexChar_hexDigit _)
  · have hd : (random_spoof_mac (rnd 0) (rnd 1)).data =
        'd' :: 'e' :: ':' :: 'a' :: 'd' :: ':' :: 'b' :: 'e' :: ':' :: 'e' :: 'f' :: ':' ::
          (hexDigit (rnd 0 / 16) :: hexDigit (rnd 0) :: ':' ::
            [hexDigit (rnd 1 / 16), hexDigit (rnd 1)]) := by
      simp [random_spoof_mac, data_append, byteHex_data]
    rw [hd]
    refine checkGroups_cons _ _ _ _ (by decide) (by decide) ?_
    refine checkGroups_cons _ _ _ _ (by decide) (by decide) ?_
    refine checkGroups_cons _ _ _ _ (by decide) (by decide) ?_
    refine checkGroups_cons _ _ _ _ (by decide) (by decide) ?_
    refine checkGroups_cons _ _ _ _ (isHexChar_hexDigit _) (isHexChar_hexDigit _) ?_
    exact checkGroups_two _ _ (isHexChar_hexDigit _) (isHexChar_hexDigit _)

/-- C4 witness at the de:ad:be:ef prefix and the all-zero byte source. -/
theorem claim4_six_groups_amended_w :
    checkGroups 6 (random_mac none zeroBytes).data = true ∧
    random_mac (some "de:ad:be:ef") zeroBytes =
      "de:ad:be:ef" ++ ":" ++
        joinColon [byteHex (zeroBytes 0), byteHex (zeroBytes 1), byteHex (zeroBytes 2),
          byteHex (zeroBytes 3)] ∧
    checkGroups 6 (host_mac (zeroBytes 0) (zeroBytes 1) (zeroBytes 2) (zeroBytes 3)).data = true ∧
    checkGroups 6 (random_spoof_mac (zeroBytes 0) (zeroBytes 1)).data = true :=
  claim4_six_groups_amended zeroBytes "de:ad:be:ef" (by decide)

/-! Initial learning pass and the simulation drivers. -/

theorem initial_pass_gen (hosts : List (String × String)) (ts : String)
    (c : SimpleController)
    (hb : c.blocked_macs = [])
    (hfresh : ∀ h ∈ hosts, lookupTable c.arp_table h.1 = none)
    (hnd : (hosts.map Prod.fst).Nodup) :
    initial_pass hosts ts c =
      { c with
          arp_table := c.arp_table ++ hosts,
          logs := c.logs ++ hosts.map (initLine ts) } := by
  induction hosts generalizing c with
  | nil => simp [initial_pass]
  | cons h rest ih =>
      obtain ⟨hip, hmac⟩ := h
      rw [List.map_cons, List.nodup_cons] at hnd
      have hmem : hmac ∉ c.blocked_macs := by simp [hb]
      have hl : lookupTable c.arp_table hip = none :=
        hfresh (hip, hmac) (List.mem_cons_self _ _)
      have hset := setTable_append_of_none c.arp_table hip hmac hl
      simp only [initial_pass, List.foldl_cons]
      rw [receive_arp_learn c ts hip hmac "initial ARP" hmem (Or.inl hl)]
      have hfresh2 : ∀ h ∈ rest,
          lookupTable (setTable c.arp_table hip hmac) h.1 = none := by
        intro h hh
        rw [hset, lookupTable_append_none _ _ _ (hfresh h (List.mem_cons_of_mem _ hh))]
        have hne : hip ≠ h.1 := by
          intro e
          exact hnd.1 (e ▸ List.mem_map.mpr ⟨h, hh, rfl⟩)
        simp [lookupTable, hne]
      have ih2 := ih
        { c with
            arp_table := setTable c.arp_table hip hmac,
            logs := c.logs ++ [mkLine ts "LEARN" (learnMsg hip hmac "initial ARP")] }
        hb hfresh2 hnd.2
      simp only [initial_pass] at ih2
      rw [ih2]
      simp [hset, initLine]

theorem initial_pass_fresh (hosts : List (String × String)) (ts : String) (b : Bool)
    (hnd : (hosts.map Prod.fst).Nodup) :
    initial_pass hosts ts ⟨[], [], b, []⟩ = ⟨hosts, [], b, hosts.map (initLine ts)⟩ := by
  have h := initial_pass_gen hosts ts ⟨[], [], b, []⟩ rfl (fun h _ => rfl) hnd
  simpa using h

theorem one_event_random_zero (hosts : List (String × String)) (d : RandDraw)
    (c : SimpleController) (hr : 0 ≤ d.r)
    (hne : hosts ≠ []) (hnd : (hosts.map Prod.fst).Nodup)
    (hT : c.arp_table = hosts) (hB : c.blocked_macs = []) :
    one_event_random hosts 0 d c = { c with logs := c.logs ++ [normalLine hosts d] } := by
  have hbranch : one_event_random hosts 0 d c =
      (c.receive_arp d.ts (hosts.getD (d.idx % hosts.length) ("", "")).1
        (hosts.getD (d.idx % hosts.length) ("", "")).2 "normal ARP").2 := by
    unfold one_event_random
    rw [if_neg (not_lt.mpr hr)]
  rw [hbranch]
  have hmem : hosts.getD (d.idx % hosts.length) ("", "") ∈ hosts :=
    getD_mem hosts _ _ (Nat.mod_lt _ (List.length_pos.mpr hne))
  have hlook : lookupTable c.arp_table (hosts.getD (d.idx % hosts.length) ("", "")).1 =
      some (hosts.getD (d.idx % hosts.length) ("", "")).2 := by
    rw [hT]
    exact lookupTable_of_mem_nodup hosts _ _ hnd (by simpa using hmem)
  have hb2 : (hosts.getD (d.idx % hosts.length) ("", "")).2 ∉ c.blocked_macs := by
    simp [hB]
  rw [receive_arp_learn c d.ts _ _ "normal ARP" hb2 (Or.inr hlook)]
  have hset : setTable c.arp_table (hosts.getD (d.idx % hosts.length) ("", "")).1
      (hosts.getD (d.idx % hosts.length) ("", "")).2 = c.arp_table :=
    setTable_self _ _ _ hlook
  simp only [hset]
  rfl

theorem run_random_zero (hosts : List (String × String)) (draws : List RandDraw)
    (c : SimpleController)
    (hne : hosts ≠ []) (hnd : (hosts.map Prod.fst).Nodup)
    (hdr : ∀ d ∈ draws, 0 ≤ d.r)
    (hT : c.arp_table = hosts) (hB : c.blocked_macs = []) :
    run_random hosts 0 draws c =
      { c with logs := c.logs ++ draws.map (normalLine hosts) } := by
  induction draws generalizing c with
  | nil => simp [run_random]
  | cons d rest ih =>
      have h1 := one_event_random_zero hosts d c (hdr d (List.mem_cons_self _ _)) hne hnd hT hB
      have ih2 := ih { c with logs := c.logs ++ [normalLine hosts d] }
        (fun d2 h2 => hdr d2 (List.mem_cons_of_mem _ h2)) hT hB
      simp only [run_random, List.foldl_cons] at ih2 ⊢
      rw [h1, ih2]
      simp

/-- C7: with the spoof chance fixed at 0.0, every random-mode step takes
the normal-ARP branch: starting from the state left by the initial
learning pass over a nonempty duplicate-free roster, any sequence of
draws with nonnegative unit-interval values keeps the table exactly equal
to the roster (no hardware address outside the roster ever enters it),
keeps the blocked set empty, and appends only LEARN lines for roster
pairs, so no ALERT or MITIGATE entry is ever produced. -/
theorem claim7_zero_spoof_chance (hosts : List (String × String)) (ts0 : String)
    (b : Bool) (draws : List RandDraw)
    (hne : hosts ≠ []) (hnd : (hosts.map Prod.fst).Nodup)
    (hdr : ∀ d ∈ draws, 0 ≤ d.r) :
    (initial_pass hosts ts0 ⟨[], [], b, []⟩).arp_table = hosts ∧
    (run_random hosts 0 draws (initial_pass hosts ts0 ⟨[], [], b, []⟩)).arp_table = hosts ∧
    (run_random hosts 0 draws (initial_pass hosts ts0 ⟨[], [], b, []⟩)).blocked_macs = [] ∧
    (run_random hosts 0 draws (initial_pass hosts ts0 ⟨[], [], b, []⟩)).logs =
      hosts.map (initLine ts0) ++ draws.map (normalLine hosts) := by
  have hip := initial_pass_fresh hosts ts0 b hnd
  have h2 := run_random_zero hosts draws ⟨hosts, [], b, hosts.map (initLine ts0)⟩
    hne hnd hdr rfl rfl
  rw [hip, h2]
  simp

/-- C7 witness: a two-host roster, a zero draw and a unit draw. -/
theorem claim7_zero_spoof_chance_w :
    (initial_pass [("a", "m1"), ("b", "m2")] "t0" ⟨[], [], true, []⟩).arp_table =
      [("a", "m1"), ("b", "m2")] ∧
    (run_random [("a", "m1"), ("b", "m2")] 0 [⟨0, 3, 7, 9, "t1"⟩, ⟨1, 0, 4, 5, "t2"⟩]
      (initial_pass [("a", "m1"), ("b", "m2")] "t0" ⟨[], [], true, []⟩)).arp_table =
      [("a", "m1"), ("b", "m2")] ∧
    (run_random [("a", "m1"), ("b", "m2")] 0 [⟨0, 3, 7, 9, "t1"⟩, ⟨1, 0, 4, 5, "t2"⟩]
      (initial_pass [("a", "m1"), ("b", "m2")] "t0" ⟨[], [], true, []⟩)).blocked_macs = [] ∧
    (run_random [("a", "m1"), ("b", "m2")] 0 [⟨0, 3, 7, 9, "t1"⟩, ⟨1, 0, 4, 5, "t2"⟩]
      (initial_pass [("a", "m1"), ("b", "m2")] "t0" ⟨[], [], true, []⟩)).logs =
      [("a", "m1"), ("b", "m2")].map (initLine "t0") ++
        [⟨0, 3, 7, 9, "t1"⟩, ⟨1, 0, 4, 5, "t2"⟩].map (normalLine [("a", "m1"), ("b", "m2")]) :=
  claim7_zero_spoof_chance [("a", "m1"), ("b", "m2")] "t0" true
    [⟨0, 3, 7, 9, "t1"⟩, ⟨1, 0, 4, 5, "t2"⟩] (by decide) (by decide) (by decide)

/-! Basic-mode step lemmas. -/

theorem one_event_basic_first (h0 v : String × String) (rest : List (String × String))
    (ts : String) (c : SimpleController)
    (hlook : lookupTable c.arp_table v.1 = some v.2)
    (hmac : v.2 ≠ "aa:aa:aa:aa:aa:aa")
    (hb : "aa:aa:aa:aa:aa:aa" ∉ c.blocked_macs)
    (hbod : c.block_on_detect = true) :
    one_event_basic (h0 :: v :: rest) ts c =
      { c with
          blocked_macs := c.blocked_macs ++ ["aa:aa:aa:aa:aa:aa"],
          logs := c.logs ++
            [mkLine ts "ALERT" (alertMsg v.1 v.2 "aa:aa:aa:aa:aa:aa" "spoof attempt (basic)"),
             mkLine ts "MITIGATE" (mitigateMsg "aa:aa:aa:aa:aa:aa"),
             mkLine ts "DROP" (dropMsg "aa:aa:aa:aa:aa:aa" "spoof attempt (basic #2)")] } := by
  simp only [one_event_basic]
  rw [receive_arp_alert_block c ts v.1 "aa:aa:aa:aa:aa:aa" v.2 "spoof attempt (basic)"
    hb hlook hmac hbod]
  rw [receive_arp_drop _ ts v.1 "aa:aa:aa:aa:aa:aa" "spoof attempt (basic #2)" (by simp)]
  simp

theorem one_event_basic_blocked (h0 v : String × String) (rest : List (String × String))
    (ts : String) (c : SimpleController)
    (hb : "aa:aa:aa:aa:aa:aa" ∈ c.blocked_macs) :
    one_event_basic (h0 :: v :: rest) ts c =
      { c with logs := c.logs ++
          [mkLine ts "DROP" (dropMsg "aa:aa:aa:aa:aa:aa" "spoof attempt (basic)"),
           mkLine ts "DROP" (dropMsg "aa:aa:aa:aa:aa:aa" "spoof attempt (basic #2)")] } := by
  simp only [one_event_basic]
  rw [receive_arp_drop c ts v.1 "aa:aa:aa:aa:aa:aa" "spoof attempt (basic)" hb]
  rw [receive_arp_drop _ ts v.1 "aa:aa:aa:aa:aa:aa" "spoof attempt (basic #2)" (by simpa using hb)]
  simp

/-- C3 counterexample: with a two-host roster and auto-block on, running
the basic-mode step twice after the initial learning pass appends five
log entries (the second step appends two further DROP lines), not the
three entries (one ALERT plus one MITIGATE followed by exactly one DROP)
that the claim asserts for the two steps together. -/
theorem claim3_basic_scenario_cex :
    (one_event_basic [("10.0.0.1", "02:00:00:00:00:01"), ("10.0.0.2", "02:00:00:00:00:02")] "t2"
      (one_event_basic [("10.0.0.1", "02:00:00:00:00:01"), ("10.0.0.2", "02:00:00:00:00:02")] "t1"
        (initial_pass [("10.0.0.1", "02:00:00:00:00:01"), ("10.0.0.2", "02:00:00:00:00:02")] "t0"
          ⟨[], [], true, []⟩))).logs.length = 7 ∧
    (initial_pass [("10.0.0.1", "02:00:00:00:00:01"), ("10.0.0.2", "02:00:00:00:00:02")] "t0"
      ⟨[], [], true, []⟩).logs.length = 2 ∧
    ¬ (one_event_basic [("10.0.0.1", "02:00:00:00:00:01"), ("10.0.0.2", "02:00:00:00:00:02")] "t2"
      (one_event_basic [("10.0.0.1", "02:00:00:00:00:01"), ("10.0.0.2", "02:00:00:00:00:02")] "t1"
        (initial_pass [("10.0.0.1", "02:00:00:00:00:01"), ("10.0.0.2", "02:00:00:00:00:02")] "t0"
          ⟨[], [], true, []⟩))).logs.length =
      (initial_pass [("10.0.0.1", "02:00:00:00:00:01"), ("10.0.0.2", "02:00:00:00:00:02")] "t0"
        ⟨[], [], true, []⟩).logs.length + 3 :=
  ⟨rfl, rfl, by decide⟩

/-- C3 amended: with at least two hosts with duplicate-free network
addresses and block_on_detect true, starting from the state after the
initial learning pass, the FIRST basic-mode step (which issues the two
scripted spoofed announcements) appends exactly one ALERT entry plus one
MITIGATE entry followed by exactly one DROP entry; the second basic-mode
step appends exactly two further DROP entries; and throughout both steps
the second host's table entry remains its original genuine hardware
address. -/
theorem claim3_basic_scenario_amended (hosts : List (String × String))
    (ts0 ts1 ts2 : String) (v : String × String)
    (hnd : (hosts.map Prod.fst).Nodup)
    (hv : hosts.get? 1 = some v)
    (hmac : v.2 ≠ "aa:aa:aa:aa:aa:aa") :
    (one_event_basic hosts ts1 (initial_pass hosts ts0 ⟨[], [], true, []⟩)).logs =
      (initial_pass hosts ts0 ⟨[], [], true, []⟩).logs ++
        [mkLine ts1 "ALERT" (alertMsg v.1 v.2 "aa:aa:aa:aa:aa:aa" "spoof attempt (basic)"),
         mkLine ts1 "MITIGATE" (mitigateMsg "aa:aa:aa:aa:aa:aa"),
         mkLine ts1 "DROP" (dropMsg "aa:aa:aa:aa:aa:aa" "spoof attempt (basic #2)")] ∧
    (one_event_basic hosts ts2
        (one_event_basic hosts ts1 (initial_pass hosts ts0 ⟨[], [], true, []⟩))).logs =
      (one_event_basic hosts ts1 (initial_pass hosts ts0 ⟨[], [], true, []⟩)).logs ++
        [mkLine ts2 "DROP" (dropMsg "aa:aa:aa:aa:aa:aa" "spoof attempt (basic)"),
         mkLine ts2 "DROP" (dropMsg "aa:aa:aa:aa:aa:aa" "spoof attempt (basic #2)")] ∧
    lookupTable
      (one_event_basic hosts ts1 (initial_pass hosts ts0 ⟨[], [], true, []⟩)).arp_table v.1 =
      some v.2 ∧
    lookupTable
      (one_event_basic hosts ts2
        (one_event_basic hosts ts1 (initial_pass hosts ts0 ⟨[], [], true, []⟩))).arp_table v.1 =
      some v.2 := by
  obtain ⟨h0, t, rfl⟩ : ∃ h0 t, hosts = h0 :: t := by
    cases hosts with
    | nil => simp at hv
    | cons a t => exact ⟨a, t, rfl⟩
  obtain ⟨v2, rest, rfl⟩ : ∃ v2 rest, t = v2 :: rest := by
    cases t with
    | nil => simp at hv
    | cons a r => exact ⟨a, r, rfl⟩
  have hvv : v = v2 := by
    have h2 := hv
    simp at h2
    exact h2.symm
  subst hvv
  have hlook : lookupTable (h0 :: v :: rest) v.1 = some v.2 :=
    lookupTable_of_mem_nodup _ _ _ hnd
      (by exact List.mem_cons_of_mem _ (List.mem_cons_self _ _))
  have hc0 := initial_pass_fresh (h0 :: v :: rest) ts0 true hnd
  rw [hc0]
  have e1 := one_event_basic_first h0 v rest ts1
    ⟨h0 :: v :: rest, [], true, (h0 :: v :: rest).map (initLine ts0)⟩
    hlook hmac (by simp) rfl
  have hc1b : "aa:aa:aa:aa:aa:aa" ∈ (one_event_basic (h0 :: v :: rest) ts1
      ⟨h0 :: v :: rest, [], true, (h0 :: v :: rest).map (initLine ts0)⟩).blocked_macs := by
    rw [e1]
    simp
  have e2 := one_event_basic_blocked h0 v rest ts2
    (one_event_basic (h0 :: v :: rest) ts1
      ⟨h0 :: v :: rest, [], true, (h0 :: v :: rest).map (initLine ts0)⟩)
    hc1b
  refine ⟨?_, ?_, ?_, ?_⟩
  · rw [e1]
  · rw [e2]
  · rw [e1]
    simpa using hlook
  · rw [e2, e1]
    simpa using hlook

/-- C3 witness: a concrete two-host roster. -/
theorem claim3_basic_scenario_amended_w :
    (one_event_basic [("a", "m1"), ("b", "m2")] "t1"
      (initial_pass [("a", "m1"), ("b", "m2")] "t0" ⟨[], [], true, []⟩)).logs =
      (initial_pass [("a", "m1"), ("b", "m2")] "t0" ⟨[], [], true, []⟩).logs ++
        [mkLine "t1" "ALERT" (alertMsg "b" "m2" "aa:aa:aa:aa:aa:aa" "spoof attempt (basic)"),
         mkLine "t1" "MITIGATE" (mitigateMsg "aa:aa:aa:aa:aa:aa"),
         mkLine "t1" "DROP" (dropMsg "aa:aa:aa:aa:aa:aa" "spoof attempt (basic #2)")] ∧
    (one_event_basic [("a", "m1"), ("b", "m2")] "t2"
        (one_event_basic [("a", "m1"), ("b", "m2")] "t1"
          (initial_pass [("a", "m1"), ("b", "m2")] "t0" ⟨[], [], true, []⟩))).logs =
      (one_event_basic [("a", "m1"), ("b", "m2")] "t1"
        (initial_pass [("a", "m1"), ("b", "m2")] "t0" ⟨[], [], true, []⟩)).logs ++
        [mkLine "t2" "DROP" (dropMsg "aa:aa:aa:aa:aa:aa" "spoof attempt (basic)"),
         mkLine "t2" "DROP" (dropMsg "aa:aa:aa:aa:aa:aa" "spoof attempt (basic #2)")] ∧
    lookupTable
      (one_event_basic [("a", "m1"), ("b", "m2")] "t1"
        (initial_pass [("a", "m1"), ("b", "m2")] "t0" ⟨[], [], true, []⟩)).arp_table "b" =
      some "m2" ∧
    lookupTable
      (one_event_basic [("a", "m1"), ("b", "m2")] "t2"
        (one_event_basic [("a", "m1"), ("b", "m2")] "t1"
          (initial_pass [("a", "m1"), ("b", "m2")] "t0" ⟨[], [], true, []⟩))).arp_table "b" =
      some "m2" :=
  claim3_basic_scenario_amended [("a", "m1"), ("b", "m2")] "t0" "t1" "t2" ("b", "m2")
    (by decide) (by decide) (by decide)

end ArpSim
